import Mathlib

set_option maxRecDepth 40000

/-!
Shallow embedding of the diagram-generation pipeline of this repository.

The embedded code:
  * `generateDiagram`   — the multi-diagram generator `generateFlowchart` in
    src/unnamed/part_000 (prompt template, LLM call, response clean-up,
    diagram-type detection);
  * `generateFlowchart` — the flowchart-only generator in
    src/src/hooks/useFlowchartGenerator.tsx (adds the `flowchart` prefix guard);
  * `validateMermaid`   — `validateMermaidSyntax` in
    src/src/components/DiagramDebugger.tsx (heuristic warnings plus the
    authoritative parse step).

Modelling conventions:
  * JavaScript strings are Lean `String`s, manipulated through their `data`
    character lists.
  * `String.prototype.trim` is `jsTrim` (leading/trailing whitespace removal).
  * `String.prototype.replace(/re/g, '')` for the two fence patterns
    `/```mermaid\n?/g` and `/```\n?/g` is `jsReplaceAll` (left-to-right
    scan, remove each match, continue after it), run with explicit fuel so
    that every definition is structurally recursive and kernel-evaluable.
  * `String.prototype.toLowerCase` is modelled on its ASCII fragment by
    mapping `Char.toLower`; all keywords compared by the code are ASCII.
  * The external LLM call (`invokeLLM`) is an oracle parameter
    `llm : String → LLMResult`; the outcome of `mermaid.parse` is an oracle
    `parse : String → Option String` (`none` = accepted, `some e` = the
    parse exception text).  Each embedded operation returns its result
    paired with the number of oracle invocations it performed, so that
    "no network call was made" / "the parser was not invoked" are statable.
  * The DOM scratch element manipulated by `validateMermaidSyntax` has no
    observable effect on the returned ValidationResult and is elided.
-/

/-- Whitespace test for the characters JavaScript `trim` removes that can
occur in this pipeline (space, tab, newline, carriage return, form feed,
vertical tab). -/
def isWS (c : Char) : Bool :=
  c == ' ' || c == '\t' || c == '\n' || c == '\r' || c == '\x0b' || c == '\x0c'

/-- JavaScript `String.prototype.trim` on a character list: drop whitespace
from the front, then from the back. -/
def jsTrim (l : List Char) : List Char :=
  ((l.dropWhile isWS).reverse.dropWhile isWS).reverse

/-- JavaScript `String.prototype.includes`: `pat` occurs as a contiguous
substring of `s`. -/
def containsSub (pat : List Char) : List Char → Bool
  | [] => pat.isEmpty
  | c :: cs => pat.isPrefixOf (c :: cs) || containsSub pat cs

/-- ASCII fragment of `String.prototype.toLowerCase`. -/
def lowerL (l : List Char) : List Char := l.map Char.toLower

/-- JavaScript `String.prototype.split('\n')`. -/
def splitNl : List Char → List (List Char)
  | [] => [[]]
  | c :: cs =>
    if c = '\n' then [] :: splitNl cs
    else
      match splitNl cs with
      | [] => [[c]]
      | p :: ps => (c :: p) :: ps

/-- JavaScript `String.prototype.split(/-->|---/)`: leftmost-first scan for
either arrow token (the two alternatives never overlap). -/
def splitArrows : List Char → List (List Char)
  | [] => [[]]
  | '-' :: '-' :: '>' :: rest => [] :: splitArrows rest
  | '-' :: '-' :: '-' :: rest => [] :: splitArrows rest
  | c :: cs =>
    match splitArrows cs with
    | [] => [[c]]
    | p :: ps => (c :: p) :: ps

/-- After a fence match, the regexes `/```mermaid\n?/` and `/```\n?/` also
consume one optional following newline. -/
def dropOptNewline : List Char → List Char
  | [] => []
  | c :: rest => if c = '\n' then rest else c :: rest

/-- Fuel-indexed engine of `String.prototype.replace(/tag\n?/g, '')`:
scan left to right; on a match remove the tag and an optional following
newline and continue after the match, otherwise keep the character. -/
def stripAux (tag : List Char) : Nat → List Char → List Char
  | 0, s => s
  | _ + 1, [] => []
  | f + 1, c :: cs =>
    if tag.isPrefixOf (c :: cs) then
      stripAux tag f (dropOptNewline ((c :: cs).drop tag.length))
    else c :: stripAux tag f cs

/-- JavaScript `s.replace(/tag\n?/g, '')` (enough fuel for the whole scan). -/
def jsReplaceAll (tag : List Char) (s : List Char) : List Char :=
  stripAux tag (s.length + 1) s

/-- The opening fence marker with language tag, i.e. the literal part of the
regex `/```mermaid\n?/g`. -/
def fenceMermaid : List Char := "```mermaid".data

/-- The bare fence marker, i.e. the literal part of the regex `/```\n?/g`. -/
def fence3 : List Char := "```".data

/-- The backtick character (for stating backtick-freeness hypotheses). -/
def backtick : Char := Char.ofNat 96

/-- Response Normalizer: `response.trim()` followed by
`.replace(/```mermaid\n?/g, '').replace(/```\n?/g, '')`
(src/unnamed/part_000 lines 85-88, identical in
src/src/hooks/useFlowchartGenerator.tsx lines 50-53). -/
def normalizeResponse (s : String) : String :=
  String.mk (jsReplaceAll fence3 (jsReplaceAll fenceMermaid (jsTrim s.data)))

/-- Fuel-indexed decimal printer (`${n}` for a JavaScript non-negative
integer): digits of `n` in order. -/
def natDecAux : Nat → Nat → List Char
  | 0, _ => []
  | f + 1, n =>
    if n < 10 then [Nat.digitChar n]
    else natDecAux f (n / 10) ++ [Nat.digitChar (n % 10)]

/-- Decimal representation of a natural number, as interpolated by the
template literals of the warning messages. -/
def natDec (n : Nat) : List Char := natDecAux (n + 1) n

/-- Character data of the warning `Line ${index+1}: Unmatched brackets - ${trimmedLine}`
(src/src/components/DiagramDebugger.tsx line 80). -/
def bwChars (n : Nat) (t : List Char) : List Char :=
  "Line ".data ++ natDec n ++ ": Unmatched brackets - ".data ++ t

/-- Character data of the warning `Line ${index+1}: Node ID contains invalid characters - ${nodeId}`
(src/src/components/DiagramDebugger.tsx line 89). -/
def nwChars (n : Nat) (t : List Char) : List Char :=
  "Line ".data ++ natDec n ++ ": Node ID contains invalid characters - ".data ++ t

/-- The warning pushed when no diagram-type keyword occurs in the first line
(src/src/components/DiagramDebugger.tsx line 68). -/
def typeDeclWarning : String := "No diagram type declaration found in first line"

/-- Count of opening brackets on a line: `(trimmedLine.match(/[\[\{]/g) || []).length`. -/
def openCnt (t : List Char) : Nat := t.countP (fun c => c == '[' || c == '\x7b')

/-- Count of closing brackets on a line: `(trimmedLine.match(/[\]\}]/g) || []).length`. -/
def closeCnt (t : List Char) : Nat := t.countP (fun c => c == ']' || c == '\x7d')

/-- Test of the character class `[^a-zA-Z0-9_-]` used on node identifiers:
`true` when the character is in the allowed set. -/
def isIdentChar (c : Char) : Bool :=
  (decide (97 ≤ c.toNat) && decide (c.toNat ≤ 122)) ||
  (decide (65 ≤ c.toNat) && decide (c.toNat ≤ 90)) ||
  (decide (48 ≤ c.toNat) && decide (c.toNat ≤ 57)) ||
  c == '_' || c == '-'

/-- Node-identifier extraction `part.trim().split(/[\[\(\{]/)[0]`: the prefix
of the trimmed part before the first `[`, `(` or brace. -/
def nodeIdOf (part : List Char) : List Char :=
  (jsTrim part).takeWhile (fun c => !(c == '[' || c == '(' || c == '\x7b'))

/-- Node-identifier warnings of one line (DiagramDebugger.tsx lines 84-92):
split the trimmed line on the arrow tokens and warn on every part whose
leading identifier is non-empty and holds a character outside `[a-zA-Z0-9_-]`. -/
def nodeWarnings (idx : Nat) (t : List Char) : List String :=
  (splitArrows t).flatMap fun part =>
    let nodeId := nodeIdOf part
    if nodeId ≠ [] && nodeId.any (fun c => !(isIdentChar c)) then
      [String.mk (nwChars (idx + 1) nodeId)]
    else []

/-- Warnings contributed by one `lines.forEach((line, index) => ...)` step
(DiagramDebugger.tsx lines 72-93): skip blank lines, warn once on a
bracket-count mismatch, then run the node-identifier checks when the line
holds an arrow token. -/
def perLine (p : Nat × List Char) : List String :=
  let t := jsTrim p.2
  if t = [] then []
  else
    (if openCnt t ≠ closeCnt t then [String.mk (bwChars (p.1 + 1) t)] else []) ++
    (if containsSub "-->".data t || containsSub "---".data t then
      nodeWarnings p.1 t
    else [])

/-- The recognized type-declaration keywords (DiagramDebugger.tsx lines 58-61). -/
def validDiagramTypes : List String :=
  ["flowchart", "graph", "sequencediagram", "classdiagram",
   "erdiagram", "statediagram", "journey", "gantt", "pie"]

/-- ValidationResult of the Syntax Heuristic Checker. -/
structure ValidationResult where
  isValid : Bool
  errors : List String
  warnings : List String
deriving DecidableEq

/-- Embedding of `validateMermaidSyntax` (DiagramDebugger.tsx lines 36-120):
blank input short-circuits to a valid empty result; otherwise the heuristic
warnings are collected (type-declaration check on the first line, then the
per-line checks in order) and `mermaid.parse` decides validity.  The second
component counts the `parse` oracle invocations. -/
def validateMermaid (code : String) (parse : String → Option String) :
    ValidationResult × Nat :=
  if jsTrim code.data = [] then (⟨true, [], []⟩, 0)
  else
    let lines := splitNl code.data
    let firstLine := lowerL (jsTrim (lines.headD []))
    let typeWs :=
      if validDiagramTypes.any (fun ty => containsSub (lowerL ty.data) firstLine) then []
      else [typeDeclWarning]
    let ws := typeWs ++ lines.enum.flatMap perLine
    match parse code with
    | none => (⟨true, [], ws⟩, 1)
    | some e => (⟨false, ["Mermaid parse error: " ++ e], ws⟩, 1)

/-- The ordered keyword/label table of the Diagram Type Classifier
(src/unnamed/part_000 lines 91-100, `Object.entries` insertion order). -/
def diagramTypes : List (String × String) :=
  [("erDiagram", "Entity Relationship Diagram"),
   ("sequenceDiagram", "Sequence Diagram"),
   ("classDiagram", "Class Diagram"),
   ("flowchart", "Flowchart"),
   ("gantt", "Gantt Chart"),
   ("stateDiagram", "State Diagram"),
   ("journey", "User Journey"),
   ("graph", "Graph Diagram")]

/-- Loop body of the classifier: first keyword (in table order) that occurs
case-insensitively in the lowered code wins, else the fallback label. -/
def detectTypeGo : List (String × String) → List Char → String
  | [], _ => "Diagram"
  | (k, v) :: rest, low =>
    if containsSub (lowerL k.data) low then v else detectTypeGo rest low

/-- Diagram Type Classifier (src/unnamed/part_000 lines 102-108). -/
def detectType (code : String) : String := detectTypeGo diagramTypes (lowerL code.data)

/-- Restatement of the classifier from the words of the specification, for
comparison: a case-insensitive substring search against the ordered keyword
list, returning the label of the first match or the fallback label. -/
def detectTypeFirstMatch (code : String) : String :=
  ((diagramTypes.find? fun kv =>
      containsSub (lowerL kv.1.data) (lowerL code.data)).map fun kv => kv.2).getD "Diagram"

/-- Outcome of one `invokeLLM` call: a string payload, a non-string payload,
a thrown `Error` carrying a message, or a thrown non-`Error` value. -/
inductive LLMResult where
  | text (s : String)
  | nonText
  | errorWith (msg : String)
  | otherThrow
deriving DecidableEq

/-- Result of the multi-diagram generator: the cleaned code and the label
stored by `setDetectedDiagramType`. -/
structure GenOutput where
  code : String
  label : String
deriving DecidableEq

/-- Text of the part_000 prompt template before the interpolated description
(the template literal in generateFlowchart, src/unnamed/part_000 lines 19-73). -/
def diagramPromptPre : String :=
  "\n        Analyze the following description and generate the appropriate Mermaid diagram: \""

/-- Text of the part_000 prompt template after the interpolated description. -/
def diagramPromptPost : String :=
  "\"\n        \n        Based on the description, determine the most suitable diagram type:\n        - If it describes database relationships, entities, or data models: use \"erDiagram\"\n        - If it describes interactions between actors/systems over time: use \"sequenceDiagram\"\n        - If it describes class structures, inheritance, or OOP concepts: use \"classDiagram\"\n        - If it describes a process, workflow, or decision flow: use \"flowchart TD\" or \"flowchart LR\"\n        - If it describes a timeline or project phases: use \"gantt\"\n        - If it describes states and transitions: use \"stateDiagram-v2\"\n        - If it describes a user journey or experience: use \"journey\"\n        - If it describes network or system architecture: use \"graph TD\"\n\n        Requirements:\n        - Use proper Mermaid syntax for the detected diagram type\n        - Use clear, descriptive labels\n        - Make it visually clear and easy to understand\n        - Only return the Mermaid code, no explanations or markdown formatting\n        - Start with the appropriate diagram declaration\n\n        Examples:\n        \n        For ER Diagram:\n        erDiagram\n            CUSTOMER ||--o\x7b ORDER : places\n            ORDER ||--|\x7b LINE-ITEM : contains\n            CUSTOMER \x7b\n                string name\n                string email\n                string phone\n            \x7d\n\n        For Sequence Diagram:\n        sequenceDiagram\n            participant A as User\n            participant B as System\n            A->>B: Request\n            B-->>A: Response\n\n        For Class Diagram:\n        classDiagram\n            class Animal \x7b\n                +String name\n                +makeSound()\n            \x7d\n            Animal <|-- Dog\n\n        For Flowchart:\n        flowchart TD\n            A[Start] --> B\x7bDecision?\x7d\n            B -->|Yes| C[Action]\n            B -->|No| D[Alternative]\n\n        Generate the appropriate diagram:\n      "

/-- Text of the useFlowchartGenerator prompt template before the description. -/
def flowchartPromptPre : String :=
  "\n        Generate a Mermaid flowchart based on the following description: \""

/-- Text of the useFlowchartGenerator prompt template after the description. -/
def flowchartPromptPost : String :=
  "\"\n        \n        Requirements:\n        - Use proper Mermaid flowchart syntax\n        - Start with \"flowchart TD\" or \"flowchart LR\" \n        - Use clear, descriptive node labels\n        - Include appropriate decision points if needed\n        - Use proper arrow connections (-->)\n        - Make it visually clear and easy to understand\n        - Only return the Mermaid code, no explanations or markdown formatting\n        \n        Example format:\n        flowchart TD\n            A[Start] --> B\x7bDecision?\x7d\n            B -->|Yes| C[Action 1]\n            B -->|No| D[Action 2]\n            C --> E[End]\n            D --> E\n        \n        Generate the flowchart:\n      "

/-- Prompt Composer of the multi-diagram generator: the template with the
description interpolated. -/
def diagramPrompt (description : String) : String :=
  diagramPromptPre ++ description ++ diagramPromptPost

/-- Prompt Composer of the flowchart-only generator. -/
def flowchartPrompt (description : String) : String :=
  flowchartPromptPre ++ description ++ flowchartPromptPost

/-- Embedding of `generateFlowchart` in src/unnamed/part_000: empty-input
guard, LLM call, response clean-up, type detection.  Thrown errors are the
`Error` messages the code produces (the catch block re-throws the caught
message, or the fixed fallback for a non-`Error` value); the second
component counts `invokeLLM` calls. -/
def generateDiagram (description : String) (llm : String → LLMResult) :
    Except String GenOutput × Nat :=
  if jsTrim description.data = [] then
    (Except.error "Please provide a description for the diagram", 0)
  else
    match llm (diagramPrompt description) with
    | .text s =>
      let m := normalizeResponse s
      (Except.ok ⟨m, detectType m⟩, 1)
    | .nonText => (Except.error "Invalid response from AI service", 1)
    | .errorWith e => (Except.error e, 1)
    | .otherThrow => (Except.error "Failed to generate diagram", 1)

/-- Embedding of `generateFlowchart` in src/src/hooks/useFlowchartGenerator.tsx:
like `generateDiagram` but with the flowchart-only template, no type
detection, and the `flowchart` prefix guard prepending `flowchart TD`. -/
def generateFlowchart (description : String) (llm : String → LLMResult) :
    Except String String × Nat :=
  if jsTrim description.data = [] then
    (Except.error "Please provide a description for the flowchart", 0)
  else
    match llm (flowchartPrompt description) with
    | .text s =>
      let m := normalizeResponse s
      (Except.ok (if "flowchart".data.isPrefixOf m.data then m else "flowchart TD\n" ++ m), 1)
    | .nonText => (Except.error "Invalid response from AI service", 1)
    | .errorWith e => (Except.error e, 1)
    | .otherThrow => (Except.error "Failed to generate flowchart", 1)

/-- Number of occurrences of a warning string in a warnings list. -/
def warnCount (ws : List String) (target : String) : Nat :=
  ws.countP (fun w => w == target)

/-! Helper lemmas: substring search, trimming, line splitting. -/

theorem isPrefixOf_append_self (p b : List Char) : p.isPrefixOf (p ++ b) = true := by
  rw [List.isPrefixOf_iff_prefix]
  exact ⟨b, rfl⟩

theorem containsSub_of_isPrefixOf {p s : List Char} (h : p.isPrefixOf s = true) :
    containsSub p s = true := by
  cases s with
  | nil =>
    cases p with
    | nil => rfl
    | cons c cs => simp [List.isPrefixOf] at h
  | cons c cs => simp [containsSub, h]

theorem containsSub_append_right {p b : List Char} (a : List Char)
    (h : containsSub p b = true) : containsSub p (a ++ b) = true := by
  induction a with
  | nil => simpa using h
  | cons c cs ih => simp [containsSub, ih]

theorem containsSub_verbatim (a p b : List Char) : containsSub p (a ++ (p ++ b)) = true :=
  containsSub_append_right a (containsSub_of_isPrefixOf (isPrefixOf_append_self p b))

theorem isPrefixOf_map (f : Char → Char) {p s : List Char} (h : p.isPrefixOf s = true) :
    (p.map f).isPrefixOf (s.map f) = true := by
  rw [List.isPrefixOf_iff_prefix] at h ⊢
  obtain ⟨t, rfl⟩ := h
  exact ⟨t.map f, by simp⟩

theorem mem_dropWhile_of_not_ws {c : Char} (h : isWS c = false) :
    ∀ {l : List Char}, c ∈ l → c ∈ l.dropWhile isWS := by
  intro l
  induction l with
  | nil => intro hm; exact absurd hm (List.not_mem_nil c)
  | cons x xs ih =>
    intro hm
    by_cases hx : isWS x
    · have : c ∈ xs := by
        rcases List.mem_cons.mp hm with rfl | hmem
        · exact absurd hx (by simp [h])
        · exact hmem
      simpa [List.dropWhile_cons, hx] using ih this
    · simpa [List.dropWhile_cons, hx] using hm

theorem mem_jsTrim {c : Char} {l : List Char} (h : isWS c = false) (hm : c ∈ l) :
    c ∈ jsTrim l := by
  unfold jsTrim
  have h1 : c ∈ l.dropWhile isWS := mem_dropWhile_of_not_ws h hm
  have h2 : c ∈ (l.dropWhile isWS).reverse := List.mem_reverse.mpr h1
  have h3 : c ∈ (l.dropWhile isWS).reverse.dropWhile isWS := mem_dropWhile_of_not_ws h h2
  exact List.mem_reverse.mpr h3

theorem jsTrim_ne_nil_of_mem {c : Char} {l : List Char} (h : isWS c = false) (hm : c ∈ l) :
    jsTrim l ≠ [] :=
  List.ne_nil_of_mem (mem_jsTrim h hm)

theorem mem_of_mem_splitNl :
    ∀ {s l : List Char}, l ∈ splitNl s → ∀ {c : Char}, c ∈ l → c ∈ s := by
  intro s
  induction s with
  | nil =>
    intro l hl c hc
    simp [splitNl] at hl
    subst hl
    exact absurd hc (List.not_mem_nil c)
  | cons x xs ih =>
    intro l hl c hc
    by_cases hx : x = '\n'
    · rw [splitNl, if_pos hx] at hl
      rcases List.mem_cons.mp hl with rfl | hmem
      · exact absurd hc (List.not_mem_nil c)
      · exact List.mem_cons_of_mem x (ih hmem hc)
    · rw [splitNl, if_neg hx] at hl
      cases hsp : splitNl xs with
      | nil =>
        rw [hsp] at hl
        simp at hl
        subst hl
        exact List.mem_cons.mpr (Or.inl (by simpa using hc))
      | cons p ps =>
        rw [hsp] at hl
        rcases List.mem_cons.mp hl with rfl | hmem
        · rcases List.mem_cons.mp hc with rfl | hmem2
          · exact List.mem_cons_self c xs
          · exact List.mem_cons_of_mem x (ih (by rw [hsp]; exact List.mem_cons_self p ps) hmem2)
        · exact List.mem_cons_of_mem x (ih (by rw [hsp]; exact List.mem_cons_of_mem p hmem) hc)

theorem jsTrim_sandwich (x y : Char) (mid : List Char)
    (hx : isWS x = false) (hy : isWS y = false) :
    jsTrim (x :: (mid ++ [y])) = x :: (mid ++ [y]) := by
  unfold jsTrim
  rw [List.dropWhile_cons, if_neg (by simp [hx])]
  rw [show (x :: (mid ++ [y])).reverse = y :: (mid.reverse ++ [x]) by simp]
  rw [List.dropWhile_cons, if_neg (by simp [hy])]
  simp

/-! Helper lemmas: the decimal printer of the warning messages. -/

theorem natDecAux_invariant :
    ∀ (f₁ f₂ n : Nat), n < f₁ → n < f₂ → natDecAux f₁ n = natDecAux f₂ n := by
  intro f₁
  induction f₁ with
  | zero => intro f₂ n h₁ _; exact absurd h₁ (Nat.not_lt_zero n)
  | succ g ih =>
    intro f₂ n h₁ h₂
    cases f₂ with
    | zero => exact absurd h₂ (Nat.not_lt_zero n)
    | succ h =>
      by_cases hn : n < 10
      · simp [natDecAux, hn]
      · have hd : n / 10 < n := Nat.div_lt_self (by omega) (by omega)
        simp only [natDecAux, if_neg hn]
        rw [ih h (n / 10) (by omega) (by omega)]

theorem natDec_unfold (n : Nat) :
    natDec n = if n < 10 then [Nat.digitChar n]
      else natDec (n / 10) ++ [Nat.digitChar (n % 10)] := by
  by_cases hn : n < 10
  · simp [natDec, natDecAux, hn]
  · have hd : n / 10 < n := Nat.div_lt_self (by omega) (by omega)
    simp only [natDec, natDecAux, if_neg hn]
    rw [natDecAux_invariant n (n / 10 + 1) (n / 10) (by omega) (by omega)]
    simp [natDecAux]

theorem natDec_ne_nil (n : Nat) : natDec n ≠ [] := by
  rw [natDec_unfold]
  by_cases hn : n < 10 <;> simp [hn]

theorem natDec_no_colon : ∀ (n : Nat), ∀ c ∈ natDec n, c ≠ ':' := by
  intro n
  induction n using Nat.strong_induction_on with
  | _ n ih =>
    intro c hc
    rw [natDec_unfold] at hc
    have hdigit : ∀ m, m < 10 → Nat.digitChar m ≠ ':' := by decide
    by_cases hn : n < 10
    · rw [if_pos hn] at hc
      simp at hc
      subst hc
      exact hdigit n hn
    · rw [if_neg hn] at hc
      rcases List.mem_append.mp hc with hm | hm
      · exact ih (n / 10) (Nat.div_lt_self (by omega) (by omega)) c hm
      · simp at hm
        subst hm
        exact hdigit (n % 10) (Nat.mod_lt n (by omega))

theorem natDec_inj : ∀ (m : Nat) {n : Nat}, natDec m = natDec n → m = n := by
  intro m
  induction m using Nat.strong_induction_on with
  | _ m ih =>
    intro n h
    have hdigit : ∀ a, a < 10 → ∀ b, b < 10 → Nat.digitChar a = Nat.digitChar b → a = b := by
      decide
    rw [natDec_unfold m, natDec_unfold n] at h
    by_cases hm : m < 10 <;> by_cases hn : n < 10
    · rw [if_pos hm, if_pos hn] at h
      simp at h
      exact hdigit m hm n hn h
    · rw [if_pos hm, if_neg hn] at h
      have := congrArg List.length h
      simp at this
      exact absurd this (natDec_ne_nil (n / 10))
    · rw [if_neg hm, if_pos hn] at h
      have := congrArg List.length h
      simp at this
      exact absurd this (natDec_ne_nil (m / 10))
    · rw [if_neg hm, if_neg hn] at h
      have hrev := congrArg List.reverse h
      simp at hrev
      have hmod : m % 10 = n % 10 := hdigit _ (Nat.mod_lt m (by omega)) _ (Nat.mod_lt n (by omega)) hrev.1
      have hdiv : m / 10 = n / 10 :=
        ih (m / 10) (Nat.div_lt_self (by omega) (by omega)) hrev.2
      omega

/-! Helper lemmas: the warning strings of the bracket and node-identifier
checks are pairwise distinguishable. -/

theorem colon_split :
    ∀ (x : List Char) {y u v : List Char}, (∀ c ∈ x, c ≠ ':') → (∀ c ∈ y, c ≠ ':') →
      x ++ ':' :: u = y ++ ':' :: v → x = y ∧ u = v := by
  intro x
  induction x with
  | nil =>
    intro y u v _ hy h
    cases y with
    | nil => simpa using h
    | cons b bs =>
      simp at h
      exact absurd h.1.symm (hy b (List.mem_cons_self b bs))
  | cons a as ih =>
    intro y u v hx hy h
    cases y with
    | nil =>
      simp at h
      exact absurd h.1 (hx a (List.mem_cons_self a as))
    | cons b bs =>
      simp at h
      obtain ⟨rfl, h2⟩ := h
      have := ih (fun c hc => hx c (List.mem_cons_of_mem a hc))
        (fun c hc => hy c (List.mem_cons_of_mem a hc)) h2
      exact ⟨by rw [this.1], this.2⟩

theorem bwChars_inj {a b : Nat} {t u : List Char} (h : bwChars a t = bwChars b u) :
    a = b ∧ t = u := by
  have hshape : ∀ n w, bwChars n w =
      "Line ".data ++ (natDec n ++ ':' :: (" Unmatched brackets - ".data ++ w)) := by
    intro n w
    simp [bwChars, List.append_assoc]
  rw [hshape, hshape] at h
  have h2 := List.append_cancel_left h
  have h3 := colon_split (natDec a) (natDec_no_colon a) (natDec_no_colon b) h2
  exact ⟨natDec_inj a h3.1, List.append_cancel_left h3.2⟩

theorem bwChars_ne_nwChars {a b : Nat} {t u : List Char} : bwChars a t ≠ nwChars b u := by
  intro h
  have hshape1 : bwChars a t =
      "Line ".data ++ (natDec a ++ ':' :: (" Unmatched brackets - ".data ++ t)) := by
    simp [bwChars, List.append_assoc]
  have hshape2 : nwChars b u =
      "Line ".data ++ (natDec b ++ ':' :: (" Node ID contains invalid characters - ".data ++ u)) := by
    simp [nwChars, List.append_assoc]
  rw [hshape1, hshape2] at h
  have h2 := List.append_cancel_left h
  have h3 := (colon_split (natDec a) (natDec_no_colon a) (natDec_no_colon b) h2).2
  rw [show " Unmatched brackets - ".data = ' ' :: 'U' :: "nmatched brackets - ".data from rfl,
    show " Node ID contains invalid characters - ".data =
      ' ' :: 'N' :: "ode ID contains invalid characters - ".data from rfl] at h3
  simp at h3

theorem mk_bwChars_ne_typeDecl (a : Nat) (t : List Char) :
    String.mk (bwChars a t) ≠ typeDeclWarning := by
  intro h
  have h2 : bwChars a t = typeDeclWarning.data := congrArg String.data h
  have h3 : ('L' : Char) = 'N' := congrArg (fun l => l.headD ' ') h2
  exact absurd h3 (by decide)

/-! Helper lemmas: counting bracket-mismatch warnings in the checker output. -/

theorem warnCount_append (a b : List String) (t : String) :
    warnCount (a ++ b) t = warnCount a t + warnCount b t :=
  List.countP_append _ a b

theorem warnCount_nodeWarnings (idx : Nat) (t0 : List Char) (a : Nat) (t : List Char) :
    warnCount (nodeWarnings idx t0) (String.mk (bwChars a t)) = 0 := by
  apply List.countP_eq_zero.mpr
  intro w hw
  simp only [nodeWarnings, List.mem_flatMap] at hw
  obtain ⟨part, _, hpart⟩ := hw
  by_cases hc : nodeIdOf part ≠ [] && (nodeIdOf part).any (fun c => !(isIdentChar c))
  · rw [if_pos hc] at hpart
    simp at hpart
    subst hpart
    simp only [beq_iff_eq, Bool.not_eq_true]
    intro h
    have := congrArg String.data h
    exact absurd this.symm bwChars_ne_nwChars
  · rw [if_neg hc] at hpart
    exact absurd hpart (List.not_mem_nil w)

theorem warnCount_perLine (j : Nat) (l : List Char) (a : Nat) (t : List Char) :
    warnCount (perLine (j, l)) (String.mk (bwChars a t)) =
      if a = j + 1 ∧ t = jsTrim l ∧ openCnt (jsTrim l) ≠ closeCnt (jsTrim l)
      then 1 else 0 := by
  by_cases ht : jsTrim l = []
  · have hop : openCnt (jsTrim l) = closeCnt (jsTrim l) := by rw [ht]; rfl
    rw [perLine, if_pos ht]
    simp [warnCount, hop]
  · rw [perLine, if_neg ht]
    simp only
    rw [warnCount_append]
    have harrow : warnCount
        (if containsSub "-->".data (jsTrim l) || containsSub "---".data (jsTrim l)
         then nodeWarnings j (jsTrim l) else []) (String.mk (bwChars a t)) = 0 := by
      by_cases hc : containsSub "-->".data (jsTrim l) || containsSub "---".data (jsTrim l)
      · rw [if_pos hc]; exact warnCount_nodeWarnings j (jsTrim l) a t
      · rw [if_neg hc]; rfl
    rw [harrow]
    by_cases hm : openCnt (jsTrim l) ≠ closeCnt (jsTrim l)
    · rw [if_pos hm]
      by_cases heq : a = j + 1 ∧ t = jsTrim l
      · rw [if_pos ⟨heq.1, heq.2, hm⟩]
        obtain ⟨rfl, rfl⟩ := heq
        simp [warnCount]
      · rw [if_neg (by intro h3; exact heq ⟨h3.1, h3.2.1⟩)]
        have : (String.mk (bwChars (j + 1) (jsTrim l)) == String.mk (bwChars a t)) = false := by
          simp only [beq_eq_false_iff_ne, ne_eq]
          intro h
          have h2 := congrArg String.data h
          have h3 := bwChars_inj h2
          exact heq ⟨h3.1.symm, h3.2.symm⟩
        simp [warnCount, this]
    · rw [if_neg hm, if_neg (by intro h3; exact hm h3.2.2)]
      rfl

theorem warnCount_enumFrom_lt :
    ∀ (ls : List (List Char)) (k a : Nat) (t : List Char), a ≤ k →
      warnCount ((List.enumFrom k ls).flatMap perLine) (String.mk (bwChars a t)) = 0 := by
  intro ls
  induction ls with
  | nil => intro k a t _; rfl
  | cons x xs ih =>
    intro k a t h
    show warnCount (perLine (k, x) ++ (List.enumFrom (k + 1) xs).flatMap perLine) _ = 0
    rw [warnCount_append, warnCount_perLine,
      if_neg (fun h3 => absurd h3.1 (by omega)), ih (k + 1) a t (by omega)]

theorem warnCount_enumFrom_main :
    ∀ (ls : List (List Char)) (k i : Nat) (l : List Char),
      ls.get? i = some l → openCnt (jsTrim l) ≠ closeCnt (jsTrim l) →
      warnCount ((List.enumFrom k ls).flatMap perLine)
        (String.mk (bwChars (k + i + 1) (jsTrim l))) = 1 := by
  intro ls
  induction ls with
  | nil => intro k i l hl _; simp at hl
  | cons x xs ih =>
    intro k i l hl hm
    cases i with
    | zero =>
      have hx : x = l := by simpa using hl
      subst hx
      show warnCount (perLine (k, x) ++ (List.enumFrom (k + 1) xs).flatMap perLine) _ = 1
      rw [warnCount_append, warnCount_perLine,
        if_pos ⟨by omega, rfl, hm⟩,
        warnCount_enumFrom_lt xs (k + 1) (k + 0 + 1) (jsTrim x) (by omega)]
    | succ n =>
      have hl2 : xs.get? n = some l := by simpa using hl
      show warnCount (perLine (k, x) ++ (List.enumFrom (k + 1) xs).flatMap perLine) _ = 1
      rw [warnCount_append, warnCount_perLine, if_neg (by intro h3; omega)]
      have := ih (k + 1) n l hl2 hm
      rw [show k + 1 + n + 1 = k + (n + 1) + 1 by omega] at this
      rw [this]

theorem countP_or_disjoint (p q : Char → Bool) (l : List Char)
    (h : ∀ c, ¬(p c = true ∧ q c = true)) :
    l.countP (fun c => p c || q c) = l.countP p + l.countP q := by
  induction l with
  | nil => rfl
  | cons x xs ih =>
    rw [List.countP_cons, List.countP_cons, List.countP_cons, ih]
    by_cases hp : p x = true
    · have hq : q x = false := by
        by_cases hq : q x = true
        · exact absurd ⟨hp, hq⟩ (h x)
        · simpa using hq
      simp [hp, hq]
      omega
    · have hp2 : p x = false := by simpa using hp
      by_cases hq : q x = true <;> simp [hp2, hq] <;> omega

theorem mem_of_mem_jsTrim {c : Char} {l : List Char} (h : c ∈ jsTrim l) : c ∈ l := by
  unfold jsTrim at h
  have h1 := List.mem_reverse.mp h
  have h2 := (List.dropWhile_sublist isWS).subset h1
  have h3 := List.mem_reverse.mp h2
  exact (List.dropWhile_sublist isWS).subset h3

/-- C8 (amended): for every input line holding exactly one opening square
bracket, no closing square bracket, and equally many opening and closing
braces (so that the line's total opening-bracket count differs from its
total closing-bracket count), the checker emits exactly one bracket-mismatch
warning for that line, and the warning carries that line's 1-based number. -/
theorem c8_bracket_warning (code : String) (parse : String → Option String)
    (i : Nat) (l : List Char)
    (hl : (splitNl code.data).get? i = some l)
    (h1 : (jsTrim l).countP (fun c => c == '[') = 1)
    (h2 : (jsTrim l).countP (fun c => c == ']') = 0)
    (h3 : (jsTrim l).countP (fun c => c == '\x7b') = (jsTrim l).countP (fun c => c == '\x7d')) :
    warnCount ((validateMermaid code parse).1.warnings)
      (String.mk (bwChars (i + 1) (jsTrim l))) = 1 := by
  have hdisj : ∀ (a b : Char), a ≠ b →
      ∀ c : Char, ¬((c == a) = true ∧ (c == b) = true) := by
    intro a b hab c hcc
    obtain ⟨hc1, hc2⟩ := hcc
    rw [beq_iff_eq] at hc1 hc2
    exact hab (hc1 ▸ hc2)
  have ho : openCnt (jsTrim l) =
      (jsTrim l).countP (fun c => c == '[') + (jsTrim l).countP (fun c => c == '\x7b') :=
    countP_or_disjoint _ _ _ (hdisj '[' '\x7b' (by decide))
  have hc : closeCnt (jsTrim l) =
      (jsTrim l).countP (fun c => c == ']') + (jsTrim l).countP (fun c => c == '\x7d') :=
    countP_or_disjoint _ _ _ (hdisj ']' '\x7d' (by decide))
  have hmismatch : openCnt (jsTrim l) ≠ closeCnt (jsTrim l) := by
    rw [ho, hc]; omega
  have hbr : ('[' : Char) ∈ jsTrim l := by
    have hpos : 0 < (jsTrim l).countP (fun c => c == '[') := by omega
    obtain ⟨a, ha, hpa⟩ := List.countP_pos_iff.mp hpos
    rw [beq_iff_eq] at hpa
    exact hpa ▸ ha
  have hmemcode : ('[' : Char) ∈ code.data :=
    mem_of_mem_splitNl (List.get?_mem hl) (mem_of_mem_jsTrim hbr)
  have hblank : jsTrim code.data ≠ [] := jsTrim_ne_nil_of_mem (by decide) hmemcode
  have hmain := warnCount_enumFrom_main (splitNl code.data) 0 i l hl hmismatch
  have htype : ∀ cond : Bool,
      warnCount (if cond = true then [] else [typeDeclWarning])
        (String.mk (bwChars (i + 1) (jsTrim l))) = 0 := by
    intro cond
    cases cond with
    | true => rfl
    | false =>
      simp only [Bool.false_eq_true, if_false]
      have hne : (typeDeclWarning == String.mk (bwChars (i + 1) (jsTrim l))) = false := by
        rw [beq_eq_false_iff_ne]
        exact fun hh => mk_bwChars_ne_typeDecl _ _ hh.symm
      simp [warnCount, List.countP_cons, hne]
  cases hp : parse code with
  | none =>
    simp only [validateMermaid, if_neg hblank, hp]
    rw [warnCount_append, htype]
    simpa using hmain
  | some e =>
    simp only [validateMermaid, if_neg hblank, hp]
    rw [warnCount_append, htype]
    simpa using hmain

/-- C8 witness: on the two-line input `flowchart TD\nA[B`, the second line
has one `[`, no `]` and no braces, and the checker output holds exactly one
warning equal to `Line 2: Unmatched brackets - A[B`. -/
theorem c8_bracket_warning_witness :
    warnCount ((validateMermaid "flowchart TD\nA[B" (fun _ => none)).1.warnings)
      (String.mk (bwChars (1 + 1) (jsTrim "A[B".data))) = 1 :=
  c8_bracket_warning "flowchart TD\nA[B" (fun _ => none) 1 "A[B".data
    (by decide) (by decide) (by decide) (by decide)

/-- C8 counterexample: the single-line input `A[B}` has exactly one `[` and
zero `]`, yet the checker emits no bracket-mismatch warning at all (the
brace balances the count), so the claim as stated fails on this input. -/
theorem c8_counterexample :
    (jsTrim "A[B\x7d".data).countP (fun c => c == '[') = 1
    ∧ (jsTrim "A[B\x7d".data).countP (fun c => c == ']') = 0
    ∧ warnCount ((validateMermaid "A[B\x7d" (fun _ => none)).1.warnings)
        (String.mk (bwChars 1 (jsTrim "A[B\x7d".data))) = 0
    ∧ (validateMermaid "A[B\x7d" (fun _ => none)).1.warnings = [typeDeclWarning] :=
  ⟨by decide, by decide, by decide, by decide⟩

/-- C1: two-tier validation policy of `validateMermaidSyntax`: whenever the
rendering library's parser accepts the definition, the result is valid with
an empty error list no matter how many heuristic warnings were produced;
whenever the parser rejects a (non-blank) definition, the result is invalid
and carries at least one error. -/
theorem c1_two_tier (code : String) (parse : String → Option String) :
    (parse code = none →
      (validateMermaid code parse).1.isValid = true
      ∧ (validateMermaid code parse).1.errors = [])
    ∧ (∀ e, jsTrim code.data ≠ [] → parse code = some e →
      (validateMermaid code parse).1.isValid = false
      ∧ (validateMermaid code parse).1.errors ≠ []) := by
  by_cases hb : jsTrim code.data = []
  · constructor
    · intro _
      simp [validateMermaid, hb]
    · intro e hne _
      exact absurd hb hne
  · constructor
    · intro hp
      simp [validateMermaid, hb, hp]
    · intro e _ hp
      simp [validateMermaid, hb, hp]

/-- C1 witness: a concrete accepted run and a concrete rejected run. -/
theorem c1_two_tier_witness :
    ((validateMermaid "flowchart TD" (fun _ => none)).1.isValid = true
      ∧ (validateMermaid "flowchart TD" (fun _ => none)).1.errors = [])
    ∧ ((validateMermaid "flowchart TD" (fun _ => some "expected element")).1.isValid = false
      ∧ (validateMermaid "flowchart TD" (fun _ => some "expected element")).1.errors ≠ []) :=
  ⟨(c1_two_tier "flowchart TD" (fun _ => none)).1 rfl,
   (c1_two_tier "flowchart TD" (fun _ => some "expected element")).2
     "expected element" (by decide) rfl⟩

/-- C9: a definition that is empty or only whitespace short-circuits to
`{ isValid := true, errors := [], warnings := [] }` with zero invocations of
the rendering library's parser. -/
theorem c9_blank_shortcircuit (code : String) (parse : String → Option String)
    (h : jsTrim code.data = []) :
    validateMermaid code parse = (⟨true, [], []⟩, 0) := by
  simp [validateMermaid, h]

/-- C9 witness: a whitespace-only definition with a parser oracle that would
reject everything is still reported valid, and the oracle is never called. -/
theorem c9_blank_shortcircuit_witness :
    validateMermaid " \n " (fun _ => some "reject") = (⟨true, [], []⟩, 0) :=
  c9_blank_shortcircuit " \n " (fun _ => some "reject") (by decide)

/-- C6: a description that is empty after trimming makes both generators fail
with their missing-input error and zero LLM calls, for every oracle. -/
theorem c6_empty_input (d : String) (h : jsTrim d.data = []) :
    (∀ llm, generateDiagram d llm =
      (Except.error "Please provide a description for the diagram", 0))
    ∧ (∀ llm, generateFlowchart d llm =
      (Except.error "Please provide a description for the flowchart", 0)) :=
  ⟨fun llm => by simp [generateDiagram, h],
   fun llm => by simp [generateFlowchart, h]⟩

/-- C6 witness: a whitespace-only description fails before any LLM call. -/
theorem c6_empty_input_witness :
    generateDiagram "   " (fun _ => LLMResult.text "flowchart TD") =
      (Except.error "Please provide a description for the diagram", 0)
    ∧ generateFlowchart "   " (fun _ => LLMResult.text "flowchart TD") =
      (Except.error "Please provide a description for the flowchart", 0) :=
  ⟨(c6_empty_input "   " (by decide)).1 _, (c6_empty_input "   " (by decide)).2 _⟩

/-- C7: when the LLM call fails with a transport error, both generators
re-throw an error carrying the same message to their caller. -/
theorem c7_transport_error (d e : String) (h : jsTrim d.data ≠ [])
    (llm : String → LLMResult) :
    (llm (diagramPrompt d) = LLMResult.errorWith e →
      generateDiagram d llm = (Except.error e, 1))
    ∧ (llm (flowchartPrompt d) = LLMResult.errorWith e →
      generateFlowchart d llm = (Except.error e, 1)) := by
  constructor
  · intro hc
    simp [generateDiagram, h, hc]
  · intro hc
    simp [generateFlowchart, h, hc]

/-- C7 witness: a concrete transport failure propagates with its message. -/
theorem c7_transport_error_witness :
    generateDiagram "login flow" (fun _ => LLMResult.errorWith "network unreachable") =
      (Except.error "network unreachable", 1)
    ∧ generateFlowchart "login flow" (fun _ => LLMResult.errorWith "network unreachable") =
      (Except.error "network unreachable", 1) :=
  ⟨(c7_transport_error "login flow" "network unreachable" (by decide) _).1 rfl,
   (c7_transport_error "login flow" "network unreachable" (by decide) _).2 rfl⟩

/-- C10: in the flowchart-only generator, a normalized response that does not
start with `flowchart` is returned with `flowchart TD\n` prepended, and every
successfully returned definition starts with `flowchart`. -/
theorem c10_flowchart_prepend (d : String) (llm : String → LLMResult) :
    (∀ s, jsTrim d.data ≠ [] → llm (flowchartPrompt d) = LLMResult.text s →
      "flowchart".data.isPrefixOf (normalizeResponse s).data = false →
      (generateFlowchart d llm).1 = Except.ok ("flowchart TD\n" ++ normalizeResponse s))
    ∧ (∀ r, (generateFlowchart d llm).1 = Except.ok r →
      "flowchart".data.isPrefixOf r.data = true) := by
  constructor
  · intro s hd hc hpre
    simp [generateFlowchart, hd, hc, hpre]
  · intro r hr
    by_cases hd : jsTrim d.data = []
    · simp [generateFlowchart, hd] at hr
    · cases hc : llm (flowchartPrompt d) with
      | text s =>
        simp only [generateFlowchart, if_neg hd, hc] at hr
        by_cases hpre : "flowchart".data.isPrefixOf (normalizeResponse s).data = true
        · simp only [hpre, if_true] at hr
          rw [← Except.ok.inj hr]
          exact hpre
        · have hpre2 : "flowchart".data.isPrefixOf (normalizeResponse s).data = false :=
            Bool.eq_false_iff.mpr hpre
          simp only [hpre2, Bool.false_eq_true, if_false] at hr
          rw [← Except.ok.inj hr]
          have hdata : ("flowchart TD\n" ++ normalizeResponse s).data =
              "flowchart".data ++ (" TD\n".data ++ (normalizeResponse s).data) := by
            simp [String.data_append]
          rw [hdata]
          exact isPrefixOf_append_self _ _
      | nonText => simp [generateFlowchart, hd, hc] at hr
      | errorWith e => simp [generateFlowchart, hd, hc] at hr
      | otherThrow => simp [generateFlowchart, hd, hc] at hr

/-- C10 witness: a response with no `flowchart` prefix is returned with the
prefix prepended, and the returned definition starts with `flowchart`. -/
theorem c10_flowchart_prepend_witness :
    (generateFlowchart "x" (fun _ => LLMResult.text "A-->B")).1 =
      Except.ok ("flowchart TD\n" ++ normalizeResponse "A-->B")
    ∧ "flowchart".data.isPrefixOf "flowchart TD\nA-->B".data = true :=
  ⟨(c10_flowchart_prepend "x" (fun _ => LLMResult.text "A-->B")).1 "A-->B"
      (by decide) rfl (by decide),
   (c10_flowchart_prepend "x" (fun _ => LLMResult.text "A-->B")).2
      "flowchart TD\nA-->B" (by rfl)⟩

theorem detectTypeGo_eq_find :
    ∀ (table : List (String × String)) (low : List Char),
      detectTypeGo table low =
        ((table.find? fun kv => containsSub (lowerL kv.1.data) low).map
          fun kv => kv.2).getD "Diagram" := by
  intro table
  induction table with
  | nil => intro low; rfl
  | cons kv rest ih =>
    intro low
    obtain ⟨k, v⟩ := kv
    by_cases hc : containsSub (lowerL k.data) low = true
    · have hfind : List.find? (fun kv => containsSub (lowerL kv.1.data) low)
          ((k, v) :: rest) = some (k, v) := List.find?_cons_of_pos _ hc
      rw [detectTypeGo, if_pos hc, hfind]
      rfl
    · have hc2 : containsSub (lowerL k.data) low = false := Bool.eq_false_iff.mpr hc
      have hfind : List.find? (fun kv => containsSub (lowerL kv.1.data) low)
          ((k, v) :: rest) =
          List.find? (fun kv => containsSub (lowerL kv.1.data) low) rest :=
        List.find?_cons_of_neg _ (by simp [hc2])
      rw [detectTypeGo, if_neg (by simp [hc2]), hfind, ih]

theorem detectTypeGo_fallback :
    ∀ (table : List (String × String)) (low : List Char),
      (∀ kv ∈ table, containsSub (lowerL kv.1.data) low = false) →
      detectTypeGo table low = "Diagram" := by
  intro table
  induction table with
  | nil => intro low _; rfl
  | cons kv rest ih =>
    intro low hall
    obtain ⟨k, v⟩ := kv
    have hk := hall (k, v) (List.mem_cons_self _ _)
    rw [detectTypeGo, if_neg (by simp [hk])]
    exact ih low (fun p hp => hall p (List.mem_cons_of_mem _ hp))

/-- C4: the Diagram Type Classifier is the case-insensitive first-match
substring search over the ordered keyword table: it agrees with the
first-match specification, maps any text starting with `erDiagram` to
`Entity Relationship Diagram`, and falls back to `Diagram` when no keyword
occurs in the text. -/
theorem c4_classifier (s : String) :
    detectType s = detectTypeFirstMatch s
    ∧ ("erDiagram".data.isPrefixOf s.data = true →
        detectType s = "Entity Relationship Diagram")
    ∧ ((∀ kv ∈ diagramTypes, containsSub (lowerL kv.1.data) (lowerL s.data) = false) →
        detectType s = "Diagram") := by
  refine ⟨detectTypeGo_eq_find diagramTypes (lowerL s.data), ?_, ?_⟩
  · intro hpre
    have hmap := isPrefixOf_map Char.toLower hpre
    have hcontains : containsSub (lowerL "erDiagram".data) (lowerL s.data) = true :=
      containsSub_of_isPrefixOf hmap
    rw [detectType, diagramTypes, detectTypeGo, if_pos hcontains]
  · intro hall
    exact detectTypeGo_fallback diagramTypes (lowerL s.data) hall

/-- C4 witness: a text starting with `erDiagram` classifies as the ER label;
a text with no keyword falls back to `Diagram`. -/
theorem c4_classifier_witness :
    detectType "erDiagram\nCUSTOMER" = "Entity Relationship Diagram"
    ∧ detectType "hello world" = "Diagram" :=
  ⟨(c4_classifier "erDiagram\nCUSTOMER").2.1 (by decide),
   (c4_classifier "hello world").2.2 (by decide)⟩

/-- C5 (amended): for every description, the composed prompt of the
multi-diagram generator contains the description verbatim and a worked
example block for four of the eight grammar families (ER, sequence, class,
flowchart); the other four families (gantt, state, journey, graph) have no
worked example in the template (see the counterexample theorem). -/
theorem c5_prompt_contents (d : String) :
    containsSub d.data (diagramPrompt d).data = true
    ∧ containsSub "For ER Diagram:".data (diagramPrompt d).data = true
    ∧ containsSub "For Sequence Diagram:".data (diagramPrompt d).data = true
    ∧ containsSub "For Class Diagram:".data (diagramPrompt d).data = true
    ∧ containsSub "For Flowchart:".data (diagramPrompt d).data = true := by
  have hdata : (diagramPrompt d).data =
      diagramPromptPre.data ++ (d.data ++ diagramPromptPost.data) := by
    simp [diagramPrompt, String.data_append]
  refine ⟨?_, ?_, ?_, ?_, ?_⟩
  · rw [hdata]
    exact containsSub_verbatim _ _ _
  all_goals
    rw [hdata]
    exact containsSub_append_right _ (containsSub_append_right _ (by decide))

/-- C5 counterexample: the prompt composed for a concrete description holds
no worked gantt example: there is no `For Gantt` example header, and the
keyword `gantt` is never followed by a newline as the declaration line of
every worked example block is — it occurs only inside the quoted decision
rule `use "gantt"`.  The claimed example-per-each-of-eight-grammars property
therefore fails. -/
theorem c5_prompt_counterexample :
    containsSub "For Gantt".data
      (diagramPrompt "User login with password check").data = false
    ∧ containsSub "gantt\n".data
      (diagramPrompt "User login with password check").data = false :=
  ⟨by decide, by decide⟩

/-! Helper lemmas: behavior of the fuelled global fence replacement. -/

theorem dropOptNewline_length_le (l : List Char) : (dropOptNewline l).length ≤ l.length := by
  cases l with
  | nil => simp [dropOptNewline]
  | cons c rest =>
    by_cases hc : c = '\n' <;> simp [dropOptNewline, hc]

theorem stripAux_invariant (tag : List Char) (htag : tag ≠ []) :
    ∀ (f₁ f₂ : Nat) (s : List Char), s.length < f₁ → s.length < f₂ →
      stripAux tag f₁ s = stripAux tag f₂ s := by
  intro f₁
  induction f₁ with
  | zero => intro f₂ s h₁ _; exact absurd h₁ (Nat.not_lt_zero _)
  | succ g ih =>
    intro f₂ s h₁ h₂
    cases f₂ with
    | zero => exact absurd h₂ (Nat.not_lt_zero _)
    | succ f =>
      cases s with
      | nil => rfl
      | cons c cs =>
        have htl : 0 < tag.length := List.length_pos.mpr htag
        by_cases hp : tag.isPrefixOf (c :: cs) = true
        · have hd1 := dropOptNewline_length_le ((c :: cs).drop tag.length)
          have hd2 : ((c :: cs).drop tag.length).length = (c :: cs).length - tag.length :=
            List.length_drop _ _
          simp only [List.length_cons] at hd2 h₁ h₂
          simp only [stripAux, if_pos hp]
          exact ih f _ (by omega) (by omega)
        · simp only [List.length_cons] at h₁ h₂
          simp only [stripAux, if_neg hp]
          rw [ih f cs (by omega) (by omega)]

theorem jsReplaceAll_cons_match (tag : List Char) (htag : tag ≠ []) {c : Char}
    {cs : List Char} (h : tag.isPrefixOf (c :: cs) = true) :
    jsReplaceAll tag (c :: cs) =
      jsReplaceAll tag (dropOptNewline ((c :: cs).drop tag.length)) := by
  have htl : 0 < tag.length := List.length_pos.mpr htag
  have hd1 := dropOptNewline_length_le ((c :: cs).drop tag.length)
  have hd2 : ((c :: cs).drop tag.length).length = (c :: cs).length - tag.length :=
    List.length_drop _ _
  show stripAux tag ((c :: cs).length + 1) (c :: cs) = _
  rw [show (c :: cs).length + 1 = cs.length + 1 + 1 from by simp]
  rw [show stripAux tag (cs.length + 1 + 1) (c :: cs) =
    if tag.isPrefixOf (c :: cs) = true then
      stripAux tag (cs.length + 1) (dropOptNewline ((c :: cs).drop tag.length))
    else c :: stripAux tag (cs.length + 1) cs from rfl]
  rw [if_pos h]
  apply stripAux_invariant tag htag
  · simp only [List.length_cons] at hd2
    omega
  · omega

theorem jsReplaceAll_cons_nomatch (tag : List Char) (htag : tag ≠ []) {c : Char}
    {cs : List Char} (h : tag.isPrefixOf (c :: cs) = false) :
    jsReplaceAll tag (c :: cs) = c :: jsReplaceAll tag cs := by
  show stripAux tag ((c :: cs).length + 1) (c :: cs) = _
  rw [show (c :: cs).length + 1 = cs.length + 1 + 1 from by simp]
  rw [show stripAux tag (cs.length + 1 + 1) (c :: cs) =
    if tag.isPrefixOf (c :: cs) = true then
      stripAux tag (cs.length + 1) (dropOptNewline ((c :: cs).drop tag.length))
    else c :: stripAux tag (cs.length + 1) cs from rfl]
  rw [if_neg (by simp [h])]
  rfl

theorem jsReplaceAll_of_not_contains (tag : List Char) (htag : tag ≠ []) :
    ∀ (s : List Char), containsSub tag s = false → jsReplaceAll tag s = s := by
  intro s
  induction s with
  | nil => intro _; rfl
  | cons c cs ih =>
    intro h
    rw [containsSub] at h
    simp only [Bool.or_eq_false_iff] at h
    rw [jsReplaceAll_cons_nomatch tag htag h.1, ih h.2]

theorem isPrefixOf_of_append_left {p q s : List Char}
    (h : (p ++ q).isPrefixOf s = true) : p.isPrefixOf s = true := by
  rw [List.isPrefixOf_iff_prefix] at h ⊢
  exact (List.prefix_append p q).trans h

theorem containsSub_of_append (p q : List Char) :
    ∀ (s : List Char), containsSub (p ++ q) s = true → containsSub p s = true := by
  intro s
  induction s with
  | nil =>
    intro h
    simp [containsSub] at h ⊢
    simp [h.1]
  | cons c cs ih =>
    intro h
    rw [containsSub] at h ⊢
    rcases Bool.or_eq_true_iff.mp h with h1 | h2
    · exact Bool.or_eq_true_iff.mpr (Or.inl (isPrefixOf_of_append_left h1))
    · exact Bool.or_eq_true_iff.mpr (Or.inr (ih h2))

theorem jsReplaceAll_strip_head (tag : List Char) (htag : tag ≠ []) (r : List Char) :
    jsReplaceAll tag (tag ++ r) = jsReplaceAll tag (dropOptNewline r) := by
  cases tag with
  | nil => exact absurd rfl htag
  | cons t ts =>
    have hpre : (t :: ts).isPrefixOf (t :: (ts ++ r)) = true := by
      rw [← List.cons_append]
      exact isPrefixOf_append_self _ _
    rw [List.cons_append, jsReplaceAll_cons_match _ htag hpre]
    congr 1
    rw [show (t :: ts).length = (t :: ts).length from rfl, ← List.cons_append,
      List.drop_left]

theorem jsReplaceAll_append_left {t0 : Char} {tagRest : List Char} :
    ∀ (a r : List Char), (∀ x ∈ a, x ≠ t0) →
      jsReplaceAll (t0 :: tagRest) (a ++ r) = a ++ jsReplaceAll (t0 :: tagRest) r := by
  intro a
  induction a with
  | nil => intro r _; rfl
  | cons x xs ih =>
    intro r ha
    have hx : x ≠ t0 := ha x (List.mem_cons_self x xs)
    have hbeq : (t0 == x) = false := beq_eq_false_iff_ne.mpr (Ne.symm hx)
    have hpre : (t0 :: tagRest).isPrefixOf (x :: (xs ++ r)) = false := by
      simp [List.isPrefixOf, hbeq]
    rw [List.cons_append, jsReplaceAll_cons_nomatch _ (by simp) hpre,
      ih r (fun y hy => ha y (List.mem_cons_of_mem x hy))]
    rfl

/-- C2 (amended): the Response Normalizer leaves every trimmed,
fence-marker-free string unchanged; and for backtick-free content `c`,
normalizing `c` wrapped in an opening fence (with the `mermaid` language tag
or with no tag) and a closing fence yields `c` followed by one newline — the
newline that preceded the closing fence is kept, because the replacement is
not followed by a second trim.  Idempotence on all strings fails for exactly
that reason (see the counterexample theorem), and opening-fence language
tags other than `mermaid` are not stripped. -/
theorem c2_normalizer :
    (∀ s : String, jsTrim s.data = s.data → containsSub fence3 s.data = false →
      normalizeResponse s = s)
    ∧ (∀ c : String, (∀ x ∈ c.data, x ≠ backtick) →
      normalizeResponse ("```mermaid\n" ++ c ++ "\n```") = c ++ "\n"
      ∧ normalizeResponse ("```\n" ++ c ++ "\n```") = c ++ "\n") := by
  have hfm_ne : fenceMermaid ≠ [] := by decide
  have hf3_ne : fence3 ≠ [] := by decide
  have hfm_cons : fenceMermaid = backtick :: "``mermaid".data := by decide
  have hf3_cons : fence3 = backtick :: "``".data := by decide
  constructor
  · intro s htrim hcont
    have hcontM : containsSub fenceMermaid s.data = false := by
      rw [Bool.eq_false_iff]
      intro hM
      rw [show fenceMermaid = fence3 ++ "mermaid".data from by decide] at hM
      have h3 := containsSub_of_append fence3 "mermaid".data s.data hM
      simp [hcont] at h3
    show String.mk (jsReplaceAll fence3 (jsReplaceAll fenceMermaid (jsTrim s.data))) = s
    rw [htrim, jsReplaceAll_of_not_contains fenceMermaid hfm_ne s.data hcontM,
      jsReplaceAll_of_not_contains fence3 hf3_ne s.data hcont]
  · intro c hc
    have hstrip2 : jsReplaceAll fence3 (c.data ++ "\n```".data) = c.data ++ ['\n'] := by
      rw [hf3_cons, jsReplaceAll_append_left c.data "\n```".data hc,
        show jsReplaceAll (backtick :: "``".data) "\n```".data = ['\n'] from by decide]
    constructor
    · show String.mk (jsReplaceAll fence3 (jsReplaceAll fenceMermaid
        (jsTrim ("```mermaid\n" ++ c ++ "\n```").data))) = c ++ "\n"
      have hX : ("```mermaid\n" ++ c ++ "\n```").data =
          "```mermaid\n".data ++ (c.data ++ "\n```".data) := by
        simp [String.data_append, List.append_assoc]
      have htrim1 : jsTrim ("```mermaid\n".data ++ (c.data ++ "\n```".data)) =
          "```mermaid\n".data ++ (c.data ++ "\n```".data) := by
        have hshape : "```mermaid\n".data ++ (c.data ++ "\n```".data) =
            backtick :: (("``mermaid\n".data ++ (c.data ++ "\n``".data)) ++ [backtick]) := by
          rw [show "```mermaid\n".data = backtick :: "``mermaid\n".data from by decide,
            show "\n```".data = "\n``".data ++ [backtick] from by decide]
          simp [List.append_assoc]
        rw [hshape]
        exact jsTrim_sandwich backtick backtick _ (by decide) (by decide)
      have hstrip1 : jsReplaceAll fenceMermaid
          ("```mermaid\n".data ++ (c.data ++ "\n```".data)) = c.data ++ "\n```".data := by
        rw [show "```mermaid\n".data ++ (c.data ++ "\n```".data) =
            fenceMermaid ++ ('\n' :: (c.data ++ "\n```".data)) from by
          rw [show "```mermaid\n".data = fenceMermaid ++ ['\n'] from by decide]
          simp [List.append_assoc]]
        rw [jsReplaceAll_strip_head fenceMermaid hfm_ne,
          show dropOptNewline ('\n' :: (c.data ++ "\n```".data)) =
            c.data ++ "\n```".data from by simp [dropOptNewline]]
        rw [hfm_cons, jsReplaceAll_append_left c.data "\n```".data hc,
          show jsReplaceAll (backtick :: "``mermaid".data) "\n```".data =
            "\n```".data from by decide]
      rw [hX, htrim1, hstrip1, hstrip2]
      show String.mk (c.data ++ "\n".data) = c ++ "\n"
      cases c
      rfl
    · show String.mk (jsReplaceAll fence3 (jsReplaceAll fenceMermaid
        (jsTrim ("```\n" ++ c ++ "\n```").data))) = c ++ "\n"
      have hX2 : ("```\n" ++ c ++ "\n```").data =
          "```\n".data ++ (c.data ++ "\n```".data) := by
        simp [String.data_append, List.append_assoc]
      have htrim2 : jsTrim ("```\n".data ++ (c.data ++ "\n```".data)) =
          "```\n".data ++ (c.data ++ "\n```".data) := by
        have hshape : "```\n".data ++ (c.data ++ "\n```".data) =
            backtick :: (("``\n".data ++ (c.data ++ "\n``".data)) ++ [backtick]) := by
          rw [show "```\n".data = backtick :: "``\n".data from by decide,
            show "\n```".data = "\n``".data ++ [backtick] from by decide]
          simp [List.append_assoc]
        rw [hshape]
        exact jsTrim_sandwich backtick backtick _ (by decide) (by decide)
      have hcons4 : "```\n".data ++ (c.data ++ "\n```".data) =
          backtick :: backtick :: backtick :: '\n' :: (c.data ++ "\n```".data) := by
        rw [show "```\n".data = [backtick, backtick, backtick, '\n'] from by decide]
        rfl
      have hm_exp : fenceMermaid = backtick :: backtick :: backtick :: 'm' :: "ermaid".data := by
        decide
      have hbm : ((backtick : Char) == '\n') = false := by decide
      have hmm : (('m' : Char) == '\n') = false := by decide
      have hnone : jsReplaceAll fenceMermaid
          (backtick :: backtick :: backtick :: '\n' :: (c.data ++ "\n```".data)) =
          backtick :: backtick :: backtick :: '\n' :: (c.data ++ "\n```".data) := by
        have e1 : fenceMermaid.isPrefixOf
            (backtick :: backtick :: backtick :: '\n' :: (c.data ++ "\n```".data)) = false := by
          rw [hm_exp]; simp [List.isPrefixOf, hmm]
        have e2 : fenceMermaid.isPrefixOf
            (backtick :: backtick :: '\n' :: (c.data ++ "\n```".data)) = false := by
          rw [hm_exp]; simp [List.isPrefixOf, hbm]
        have e3 : fenceMermaid.isPrefixOf
            (backtick :: '\n' :: (c.data ++ "\n```".data)) = false := by
          rw [hm_exp]; simp [List.isPrefixOf, hbm]
        have e4 : fenceMermaid.isPrefixOf ('\n' :: (c.data ++ "\n```".data)) = false := by
          rw [hm_exp]; simp [List.isPrefixOf, hbm]
        rw [jsReplaceAll_cons_nomatch _ hfm_ne e1, jsReplaceAll_cons_nomatch _ hfm_ne e2,
          jsReplaceAll_cons_nomatch _ hfm_ne e3, jsReplaceAll_cons_nomatch _ hfm_ne e4,
          hfm_cons, jsReplaceAll_append_left c.data "\n```".data hc,
          show jsReplaceAll (backtick :: "``mermaid".data) "\n```".data =
            "\n```".data from by decide]
      have hsplit3 : "```\n".data ++ (c.data ++ "\n```".data) =
          fence3 ++ ('\n' :: (c.data ++ "\n```".data)) := by
        rw [show "```\n".data = fence3 ++ ['\n'] from by decide]
        simp [List.append_assoc]
      rw [hX2, htrim2, hcons4, hnone, ← hcons4, hsplit3,
        jsReplaceAll_strip_head fence3 hf3_ne,
        show dropOptNewline ('\n' :: (c.data ++ "\n```".data)) =
          c.data ++ "\n```".data from by simp [dropOptNewline],
        hstrip2]
      show String.mk (c.data ++ "\n".data) = c ++ "\n"
      cases c
      rfl

/-- C2 witness: a clean definition passes through unchanged, and both fence
styles around backtick-free content strip to the content plus one newline. -/
theorem c2_normalizer_witness :
    normalizeResponse "flowchart TD" = "flowchart TD"
    ∧ normalizeResponse "```mermaid\nflowchart TD\n```" = "flowchart TD\n"
    ∧ normalizeResponse "```\nflowchart TD\n```" = "flowchart TD\n" :=
  ⟨c2_normalizer.1 "flowchart TD" (by decide) (by decide),
   (c2_normalizer.2 "flowchart TD" (by decide)).1,
   (c2_normalizer.2 "flowchart TD" (by decide)).2⟩

/-- C2 counterexample: the Response Normalizer is not idempotent — the
already-normalized string `X\n` (the normalizer's own output on
`` ```\nX\n``` ``) is changed again by a second application, which trims the
exposed trailing newline; moreover a non-mermaid language tag is not
stripped: `` ```json\nX\n``` `` normalizes to `json\nX\n`, not to `X`
content with the fence lines removed. -/
theorem c2_normalizer_counterexample :
    normalizeResponse (normalizeResponse "```\nX\n```") ≠ normalizeResponse "```\nX\n```"
    ∧ normalizeResponse "```json\nX\n```" = "json\nX\n" :=
  ⟨by decide, by decide⟩

/-- C3 (amended): for the stubbed completion response
`` ```mermaid\nflowchart TD\n  A-->B\n``` `` the generator returns the
DiagramDefinition `flowchart TD\n  A-->B\n` — the fences are stripped but
the newline that preceded the closing fence remains — with classified label
`Flowchart`; the Syntax Heuristic Checker on that definition produces zero
warnings (in particular zero bracket warnings), and with an accepting parser
zero errors and a valid result. -/
theorem c3_end_to_end (parse : String → Option String) :
    generateDiagram "User login with password check"
        (fun _ => LLMResult.text "```mermaid\nflowchart TD\n  A-->B\n```") =
      (Except.ok ⟨"flowchart TD\n  A-->B\n", "Flowchart"⟩, 1)
    ∧ (parse "flowchart TD\n  A-->B\n" = none →
        validateMermaid "flowchart TD\n  A-->B\n" parse = (⟨true, [], []⟩, 1)) := by
  constructor
  · rfl
  · intro hp
    unfold validateMermaid
    rw [if_neg (by decide), hp]
    rfl

/-- C3 witness: the amended end-to-end run with a concrete accepting parser. -/
theorem c3_end_to_end_witness :
    generateDiagram "User login with password check"
        (fun _ => LLMResult.text "```mermaid\nflowchart TD\n  A-->B\n```") =
      (Except.ok ⟨"flowchart TD\n  A-->B\n", "Flowchart"⟩, 1)
    ∧ validateMermaid "flowchart TD\n  A-->B\n" (fun _ => none) = (⟨true, [], []⟩, 1) :=
  ⟨(c3_end_to_end (fun _ => none)).1, (c3_end_to_end (fun _ => none)).2 rfl⟩

/-- C3 counterexample: the produced DiagramDefinition is not the claimed
`flowchart TD\n  A-->B`: it carries a trailing newline, because the closing
fence's preceding newline survives the replacement and no second trim runs. -/
theorem c3_counterexample :
    (generateDiagram "User login with password check"
        (fun _ => LLMResult.text "```mermaid\nflowchart TD\n  A-->B\n```")).1 =
      Except.ok ⟨"flowchart TD\n  A-->B\n", "Flowchart"⟩
    ∧ ("flowchart TD\n  A-->B\n" : String) ≠ "flowchart TD\n  A-->B" :=
  ⟨rfl, by decide⟩
